import Mathlib

/-!
Verification of the tool installer (`installer.rs`) and the script runner
(`run.rs`).  Filesystem state is embedded explicitly: a store records which
tool-environment roots exist and what the shim directory holds, and every
fallible primitive of the code (directory removal, directory reads, link
reads, file removal, the external subprocesses) carries an injected outcome,
so that both the success paths and the error paths of the code are visible
as pure functions.
-/

deriving instance DecidableEq for Except

namespace Rye

/-- A filesystem path, as its list of components (Rust `PathBuf`).
`Path::join` of a component appends it; `strip_prefix` succeeds exactly when
the argument's components form a prefix. -/
abbrev FsPath := List String

/-- One entry of the shim directory as the uninstall scan sees it: its name,
whether it is a symlink, the result of `fs::read_link` (`none` models a
failing read), and the injected outcomes of the two fallible per-entry
operations: reading the directory entry itself and `fs::remove_file`. -/
structure ShimItem where
  name : FsPath
  isSymlink : Bool
  linkTarget : Option FsPath
  entryReadOk : Bool
  removeFileOk : Bool
  deriving DecidableEq

/-- The error causes that the `?` operators of `uninstall_helper` can
propagate. -/
inductive FsErr where
  | readDirFailed
  | dirEntryFailed (name : FsPath)
  | removeFileFailed (name : FsPath)
  deriving DecidableEq

/-- The mutable filesystem facts the installer touches: which tool
environment roots exist, and the contents of the shim directory. -/
structure Store where
  envDirs : List FsPath
  shims : List ShimItem
  deriving DecidableEq

/-- Injected outcomes of the two whole-directory operations of
`uninstall_helper`: `fs::remove_dir_all` and `fs::read_dir`. -/
structure HelperWorld where
  removeDirAllOk : Bool
  readDirOk : Bool
  deriving DecidableEq

/-- Does `uninstall_helper` delete this shim entry?  The loop in
`installer.rs` keeps non-symlinks, silently skips entries whose `read_link`
fails, and removes a symlink exactly when
`target.strip_prefix(target_venv_path)` succeeds, i.e. when the environment
path is a component prefix of the link target. -/
def shimRemovable (venv : FsPath) (s : ShimItem) : Bool :=
  s.isSymlink &&
    (match s.linkTarget with
     | some t => venv.isPrefixOf t
     | none => false)

/-- The shim-scanning loop of `uninstall_helper` (installer.rs lines
139-148), acting on the listed entries in order.  Returns the loop's result
and the entries still present afterwards; an error aborts the loop at once,
so entries not yet processed stay in place. -/
def processShims (venv : FsPath) : List ShimItem → Except FsErr Unit × List ShimItem
  | [] => (.ok (), [])
  | s :: rest =>
    if s.entryReadOk = false then (.error (.dirEntryFailed s.name), s :: rest)
    else if shimRemovable venv s then
      if s.removeFileOk then processShims venv rest
      else (.error (.removeFileFailed s.name), s :: rest)
    else
      let r := processShims venv rest
      (r.1, s :: r.2)

/-- `uninstall_helper` (installer.rs lines 136-152): a best-effort
`fs::remove_dir_all` on the environment root — its result is discarded by
`.ok()` — then the shim-directory scan, which `fs::read_dir` failure aborts
before any entry is visited. -/
def uninstall_helper (target_venv_path : FsPath) (w : HelperWorld) (s : Store) :
    Except FsErr Unit × Store :=
  let envDirs :=
    if w.removeDirAllOk then s.envDirs.filter (fun d => decide (d ≠ target_venv_path))
    else s.envDirs
  if w.readDirOk = false then (.error .readDirFailed, { s with envDirs })
  else
    let r := processShims target_venv_path s.shims
    (r.1, { envDirs, shims := r.2 })

/-- The error taxonomy surfaced by `install` and `uninstall`. -/
inductive RyeErr where
  | alreadyInstalled
  | helperFailed (e : FsErr)
  | uninstallFailed (target : FsPath) (e : FsErr)
  | selfVenvFailed
  | fetchFailed
  | createVenvFailed
  | installFailed
  | manifestUnreadable
  | symlinkFailed (file : FsPath)
  deriving DecidableEq

/-- `uninstall` (installer.rs lines 118-134): resolve the environment path
from the normalized package name (normalization itself is an external
collaborator, passed in as a function); a missing environment directory is
a successful no-op; otherwise run the helper, wrapping any error of it in
the "unable to uninstall" context. -/
def uninstall (app_dir : FsPath) (package : String) (normalize : String → String)
    (w : HelperWorld) (s : Store) : Except RyeErr Unit × Store :=
  let tool_dir := app_dir ++ ["tools"]
  let target_venv_path := tool_dir ++ [normalize package]
  if target_venv_path ∈ s.envDirs then
    let r := uninstall_helper target_venv_path w s
    match r.1 with
    | .ok _ => (.ok (), r.2)
    | .error e => (.error (.uninstallFailed target_venv_path e), r.2)
  else (.ok (), s)

/-- Running `uninstall` a given number of times, threading the store through
and reporting the last run's result. -/
def uninstallIter (app_dir : FsPath) (package : String) (normalize : String → String)
    (w : HelperWorld) : Nat → Store → Except RyeErr Unit × Store
  | 0, s => (.ok (), s)
  | n + 1, s =>
    let r := uninstall app_dir package normalize w s
    match n with
    | 0 => r
    | m + 1 => uninstallIter app_dir package normalize w (m + 1) r.2

/-- Injected outcomes of the external collaborators `install` consults:
`ensure_self_venv`, `fetch`, `create_virtualenv`, the pip subprocess, the
manifest dump (`none` models undecodable output), and symlink creation per
manifest file. -/
structure InstallWorld where
  helper : HelperWorld
  selfVenvOk : Bool
  fetchOk : Bool
  createVenvOk : Bool
  pipOk : Bool
  manifest : Option (List FsPath)
  symlinkOk : FsPath → Bool

/-- The shim-publication loop of `install` (installer.rs lines 87-99): every
manifest file under the environment's bin directory gets a symlink named by
the remainder of its path; a symlink failure aborts the loop. -/
def installShims (target_venv_bin_path : FsPath) (symlinkOk : FsPath → Bool) :
    List FsPath → Store → Except RyeErr Unit × Store
  | [], s => (.ok (), s)
  | f :: rest, s =>
    if target_venv_bin_path.isPrefixOf f then
      if symlinkOk f then
        let item : ShimItem :=
          { name := f.drop target_venv_bin_path.length, isSymlink := true,
            linkTarget := some f, entryReadOk := true, removeFileOk := true }
        installShims target_venv_bin_path symlinkOk rest { s with shims := s.shims ++ [item] }
      else (.error (.symlinkFailed f), s)
    else installShims target_venv_bin_path symlinkOk rest s

/-- `install` (installer.rs lines 30-116): fail with AlreadyInstalled when
the target environment directory exists and `force` is false; otherwise run
the idempotent uninstall helper, provision an interpreter, create the fresh
environment, run the external package installer, read the manifest and
publish shims.  `ensure_self_venv` runs before the existence check, exactly
as in the code. -/
def install (app_dir : FsPath) (name : String) (normalize : String → String)
    (force : Bool) (w : InstallWorld) (s : Store) : Except RyeErr Unit × Store :=
  if w.selfVenvOk = false then (.error .selfVenvFailed, s)
  else
    let tool_dir := app_dir ++ ["tools"]
    let target_venv_path := tool_dir ++ [normalize name]
    if target_venv_path ∈ s.envDirs ∧ force = false then (.error .alreadyInstalled, s)
    else
      let target_venv_bin_path := target_venv_path ++ ["bin"]
      let r := uninstall_helper target_venv_path w.helper s
      match r.1 with
      | .error e => (.error (.helperFailed e), r.2)
      | .ok _ =>
        if w.fetchOk = false then (.error .fetchFailed, r.2)
        else if w.createVenvOk = false then (.error .createVenvFailed, r.2)
        else
          let s2 : Store := { r.2 with envDirs := target_venv_path :: r.2.envDirs }
          if w.pipOk = false then (.error .installFailed, s2)
          else
            match w.manifest with
            | none => (.error .manifestUnreadable, s2)
            | some files => installShims target_venv_bin_path w.symlinkOk files s2

/-! ### The script runner, `run.rs` -/

/-- A script-table entry (the pyproject `Script` type): a literal command
alias (`Script::Cmd`) or an external passthrough script
(`Script::External`). -/
inductive Script where
  | cmd (args : List String)
  | external (path : String)
  deriving DecidableEq

/-- The project context `execute` consults: the venv root and bin paths, the
script table, the listing order of names, and which paths exist as files. -/
structure RunWorld where
  venv_path : String
  venv_bin : String
  get_script_cmd : String → Option Script
  scriptNames : List String
  isFile : String → Bool

/-- `Path::join` on Unix paths rendered as strings: an absolute right
operand replaces the base path. -/
def pathJoin (base child : String) : String :=
  match child.data with
  | '/' :: _ => child
  | _ => base ++ "/" ++ child

/-- Script resolution of `execute` (run.rs lines 48-72), producing the final
argv from the invoked command name (`args[0]`) and its trailing arguments.
A non-empty literal whose first token resolves to a file under the venv bin
directory is rewritten to that path; a non-empty literal otherwise replaces
the command name; an external script joins the command name onto the bin
path; an empty literal and an undefined name both leave the argv alone. -/
def resolveArgs (w : RunWorld) (name : String) (rest : List String) : List String :=
  match w.get_script_cmd name with
  | some (.cmd (s0 :: stail)) =>
    let script_target := pathJoin w.venv_bin s0
    if w.isFile script_target then script_target :: (stail ++ rest)
    else (s0 :: stail) ++ rest
  | some (.external _) => pathJoin w.venv_bin name :: rest
  | some (.cmd []) => name :: rest
  | none => name :: rest

/-- Does the string contain a NUL byte?  `CString::new` fails exactly then. -/
def containsNul (s : String) : Bool :=
  s.data.any (fun c => c == Char.ofNat 0)

/-- What run.rs lines 74-78 and 94 do with the resolved argv: arguments
failing `CString::new` are silently dropped by `filter_map(.. .ok())`, then
`args[0]` is indexed — a panic when the filtered vector is empty — and
`execv` is invoked on it with the whole filtered argv. -/
inductive ExecOutcome where
  | panicked
  | exec (path : String) (argv : List String)
  deriving DecidableEq

/-- The conversion-and-index stage described at `ExecOutcome`. -/
def execStage (args : List String) : ExecOutcome :=
  match args.filter (fun a => !containsNul a) with
  | [] => .panicked
  | p :: rest => .exec p (p :: rest)

/-- The process environment, a partial map from variable names to values. -/
def EnvMap := String → Option String

/-- `env::set_var`. -/
def setVar (e : EnvMap) (k v : String) : EnvMap :=
  fun k2 => if k2 = k then some v else e k2

/-- `env::remove_var`. -/
def removeVar (e : EnvMap) (k : String) : EnvMap :=
  fun k2 => if k2 = k then none else e k2

/-- The environment overlay of run.rs lines 82-91: set VIRTUAL_ENV to the
venv root, prepend the venv bin directory (with a `:` separator) to PATH —
or set PATH to the bin directory alone when PATH is unset — and remove
PYTHONHOME. -/
def applyRunEnv (w : RunWorld) (e : EnvMap) : EnvMap :=
  let e1 := setVar e "VIRTUAL_ENV" w.venv_path
  let e2 :=
    match e1 "PATH" with
    | some p => setVar e1 "PATH" (w.venv_bin ++ ":" ++ p)
    | none => setVar e1 "PATH" w.venv_bin
  removeVar e2 "PYTHONHOME"

/-- ASCII lowercasing of one character, as in `char::to_ascii_lowercase`. -/
def asciiLowerChar (c : Char) : Char :=
  if 'A' ≤ c ∧ c ≤ 'Z' then Char.ofNat (c.toNat + 32) else c

/-- `str::to_ascii_lowercase`. -/
def asciiLower (s : String) : String := String.map asciiLowerChar s

/-- Modelled from the spec: the `Display` rendering of a literal script that
`list_scripts` prints lives in pyproject.rs, outside the sources here; the
spec's example renders the argument sequence `["foo"]` as `foo`, i.e. the
tokens space-joined. -/
def renderScriptArgs (args : List String) : String :=
  String.intercalate " " args

/-- One printed line of `list_scripts`: external passthrough scripts print
the bare name, literal scripts print `name (rendered args)`. -/
def renderScriptLine (p : String × Script) : String :=
  match p.2 with
  | .external _ => p.1
  | .cmd args => p.1 ++ " (" ++ renderScriptArgs args ++ ")"

/-- The defined scripts in listing order: `list_scripts` keeps the names for
which `get_script_cmd` yields a script (run.rs lines 105-112). -/
def definedScripts (w : RunWorld) : List (String × Script) :=
  w.scriptNames.filterMap (fun name =>
    match w.get_script_cmd name with
    | some s => some (name, s)
    | none => none)

/-- The case-insensitive ordering `list_scripts` sorts by. -/
def scriptLe (a b : String × Script) : Bool :=
  decide (asciiLower a.1 ≤ asciiLower b.1)

/-- `list_scripts` (run.rs lines 104-122): sort the defined scripts by their
ASCII-lowercased names (`sort_by` is a stable sort, modelled by the stable
merge sort) and render one line per script. -/
def list_scripts (w : RunWorld) : List String :=
  ((definedScripts w).mergeSort scriptLe).map renderScriptLine

/-- The observable result of one `run` invocation: either the listing's
lines, or the exec stage's outcome together with the process environment at
the moment of the `execv` call. -/
inductive RunResult where
  | listing (lines : List String)
  | outcome (o : ExecOutcome) (env : EnvMap)

/-- `execute` (run.rs lines 33-102) after project discovery and sync: list
when the flag is set or no command was given; otherwise resolve the argv and
run the conversion-and-index stage — the environment overlay is applied only
when that stage did not panic, since the panicking index in the code comes
before the `env::set_var` calls. -/
def executeRun (w : RunWorld) (listFlag : Bool) (cmd : Option (String × List String))
    (e : EnvMap) : RunResult :=
  if listFlag = true ∨ cmd = none then .listing (list_scripts w)
  else
    match cmd with
    | none => .listing (list_scripts w)
    | some (name, rest) =>
      match execStage (resolveArgs w name rest) with
      | .panicked => .outcome .panicked e
      | .exec p argv => .outcome (.exec p argv) (applyRunEnv w e)

/-! ### Shared concrete fixtures -/

/-- The resolved environment root of package `pkg` under app dir `app`. -/
def sampleEnvPath : FsPath := ["app", "tools", "pkg"]

/-- A shim that is a symlink into the sample environment. -/
def sampleShimIn : ShimItem :=
  { name := ["a"], isSymlink := true,
    linkTarget := some ["app", "tools", "pkg", "bin", "a"],
    entryReadOk := true, removeFileOk := true }

/-- A shim that is a symlink into some other environment. -/
def sampleShimOut : ShimItem :=
  { name := ["b"], isSymlink := true,
    linkTarget := some ["app", "tools", "other", "bin", "b"],
    entryReadOk := true, removeFileOk := true }

/-- A shim-directory entry that is not a symlink. -/
def sampleShimFile : ShimItem :=
  { name := ["c"], isSymlink := false, linkTarget := none,
    entryReadOk := true, removeFileOk := true }

/-- A store with one installed environment and three shim entries. -/
def sampleStore : Store :=
  { envDirs := [sampleEnvPath], shims := [sampleShimIn, sampleShimOut, sampleShimFile] }

/-- A world where every filesystem operation succeeds. -/
def okWorld : HelperWorld := { removeDirAllOk := true, readDirOk := true }

/-- A world where the recursive environment deletion fails and everything
else succeeds. -/
def brokenRemoveWorld : HelperWorld := { removeDirAllOk := false, readDirOk := true }

/-- A world where reading the shim directory fails. -/
def brokenReadDirWorld : HelperWorld := { removeDirAllOk := true, readDirOk := false }

/-- A world where every collaborator of `install` succeeds. -/
def okInstallWorld : InstallWorld :=
  { helper := okWorld, selfVenvOk := true, fetchOk := true, createVenvOk := true,
    pipOk := true, manifest := some [], symlinkOk := fun _ => true }

/-! ### Theorems about the installer -/

/-- When every per-entry operation succeeds, the shim scan returns
successfully and keeps exactly the entries it does not remove. -/
theorem processShims_all_ok (venv : FsPath) (l : List ShimItem)
    (hok : ∀ it ∈ l, it.entryReadOk = true ∧ it.removeFileOk = true) :
    processShims venv l = (.ok (), l.filter (fun it => !shimRemovable venv it)) := by
  induction l with
  | nil => rfl
  | cons s rest ih =>
    have h1 : s.entryReadOk = true := (hok s (by simp)).1
    have h2 : s.removeFileOk = true := (hok s (by simp)).2
    have ih2 := ih (fun it hit => hok it (by simp [hit]))
    cases hsr : shimRemovable venv s with
    | true => simp [processShims, h1, h2, hsr, ih2]
    | false => simp [processShims, h1, h2, hsr, ih2]

/-- Claim C1: after `uninstall` of an installed package, with all filesystem
operations succeeding, every shim-directory entry that is a symlink whose
link target lies under the removed environment's path is deleted, while
non-symlink entries and symlinks whose targets lie elsewhere are left in
place unchanged (the remaining listing is exactly the original one filtered
by that condition). -/
theorem uninstall_prunes_env_shims
    (app_dir : FsPath) (package : String) (normalize : String → String)
    (w : HelperWorld) (s : Store)
    (hinst : app_dir ++ ["tools"] ++ [normalize package] ∈ s.envDirs)
    (hrd : w.readDirOk = true)
    (hok : ∀ it ∈ s.shims, it.entryReadOk = true ∧ it.removeFileOk = true) :
    (uninstall app_dir package normalize w s).1 = .ok () ∧
    (uninstall app_dir package normalize w s).2.shims
      = s.shims.filter
          (fun it => !shimRemovable (app_dir ++ ["tools"] ++ [normalize package]) it) ∧
    (∀ it ∈ s.shims,
      shimRemovable (app_dir ++ ["tools"] ++ [normalize package]) it = true →
      it ∉ (uninstall app_dir package normalize w s).2.shims) ∧
    (∀ it ∈ s.shims,
      shimRemovable (app_dir ++ ["tools"] ++ [normalize package]) it = false →
      it ∈ (uninstall app_dir package normalize w s).2.shims) := by
  have hps := processShims_all_ok (app_dir ++ ["tools"] ++ [normalize package]) s.shims hok
  have hshims : (uninstall app_dir package normalize w s).1 = .ok () ∧
      (uninstall app_dir package normalize w s).2.shims
        = s.shims.filter
            (fun it => !shimRemovable (app_dir ++ ["tools"] ++ [normalize package]) it) := by
    simp only [List.append_assoc, List.cons_append, List.nil_append] at hps hinst ⊢
    constructor
    · simp [uninstall, uninstall_helper, hinst, hrd, hps]
    · simp [uninstall, uninstall_helper, hinst, hrd, hps]
  refine ⟨hshims.1, hshims.2, ?_, ?_⟩
  · intro it _ hrem
    rw [hshims.2]
    simp only [List.mem_filter]
    rintro ⟨-, hc⟩
    rw [hrem] at hc
    simp at hc
  · intro it hmem hrem
    rw [hshims.2]
    simp only [List.mem_filter]
    exact ⟨hmem, by rw [hrem]; rfl⟩

/-- Witness for C1 at a concrete store holding a shim into the removed
environment, a shim into another environment, and a non-symlink entry. -/
theorem uninstall_prunes_env_shims_witness :
    ((["app"] ++ ["tools"] ++ [id "pkg"]) ∈ sampleStore.envDirs ∧
      okWorld.readDirOk = true ∧
      (∀ it ∈ sampleStore.shims, it.entryReadOk = true ∧ it.removeFileOk = true)) ∧
    ((uninstall ["app"] "pkg" id okWorld sampleStore).1 = .ok () ∧
     (uninstall ["app"] "pkg" id okWorld sampleStore).2.shims
       = sampleStore.shims.filter
           (fun it => !shimRemovable (["app"] ++ ["tools"] ++ [id "pkg"]) it) ∧
     (∀ it ∈ sampleStore.shims,
       shimRemovable (["app"] ++ ["tools"] ++ [id "pkg"]) it = true →
       it ∉ (uninstall ["app"] "pkg" id okWorld sampleStore).2.shims) ∧
     (∀ it ∈ sampleStore.shims,
       shimRemovable (["app"] ++ ["tools"] ++ [id "pkg"]) it = false →
       it ∈ (uninstall ["app"] "pkg" id okWorld sampleStore).2.shims)) :=
  ⟨⟨by decide, rfl, by decide⟩,
   uninstall_prunes_env_shims ["app"] "pkg" id okWorld sampleStore
     (by decide) rfl (by decide)⟩

/-- Claim C2: when the target environment directory already exists and
`force` is false (and the self-venv bootstrap, which the code runs first,
succeeds), `install` fails with AlreadyInstalled and returns the store
exactly as it was: no environment directory and no shim entry changes. -/
theorem install_already_installed_noop
    (app_dir : FsPath) (name : String) (normalize : String → String)
    (w : InstallWorld) (s : Store)
    (hself : w.selfVenvOk = true)
    (hdir : app_dir ++ ["tools"] ++ [normalize name] ∈ s.envDirs) :
    install app_dir name normalize false w s = (.error .alreadyInstalled, s) := by
  simp only [List.append_assoc, List.cons_append, List.nil_append] at hdir
  simp [install, hself, hdir]

/-- Witness for C2 at the concrete sample store. -/
theorem install_already_installed_noop_witness :
    (okInstallWorld.selfVenvOk = true ∧
      (["app"] ++ ["tools"] ++ [id "pkg"]) ∈ sampleStore.envDirs) ∧
    install ["app"] "pkg" id false okInstallWorld sampleStore
      = (.error .alreadyInstalled, sampleStore) :=
  ⟨⟨rfl, by decide⟩,
   install_already_installed_noop ["app"] "pkg" id okInstallWorld sampleStore rfl (by decide)⟩

/-- Counterexample to claim C3 as stated: on an installed package, with the
recursive environment-directory deletion failing (`remove_dir_all` reports
an error) and the shim scan succeeding, `uninstall` still returns success —
the deletion failure is discarded by the `.ok()` in `uninstall_helper`, so
it does not surface as an UninstallFailed error. -/
theorem uninstall_removeDirAll_failure_discarded :
    brokenRemoveWorld.removeDirAllOk = false ∧
    (["app"] ++ ["tools"] ++ [id "pkg"]) ∈ sampleStore.envDirs ∧
    (uninstall ["app"] "pkg" id brokenRemoveWorld sampleStore).1 = .ok () := by
  exact ⟨rfl, by decide, by decide⟩

/-- Claim C3 as amended: during uninstall of an existing environment, every
failure of reading the shim directory or one of its entries and every
failure of deleting a matching shim entry surfaces as an UninstallFailed
error wrapping the underlying error, while the result is independent of
whether the best-effort recursive environment deletion succeeded. -/
theorem uninstall_scan_failures_surface
    (app_dir : FsPath) (package : String) (normalize : String → String)
    (w : HelperWorld) (s : Store)
    (hinst : app_dir ++ ["tools"] ++ [normalize package] ∈ s.envDirs) :
    ((uninstall_helper (app_dir ++ ["tools"] ++ [normalize package]) w s).1 = .ok () →
      (uninstall app_dir package normalize w s).1 = .ok ()) ∧
    (∀ e, (uninstall_helper (app_dir ++ ["tools"] ++ [normalize package]) w s).1 = .error e →
      (uninstall app_dir package normalize w s).1
        = .error (.uninstallFailed (app_dir ++ ["tools"] ++ [normalize package]) e)) ∧
    (∀ b, (uninstall_helper (app_dir ++ ["tools"] ++ [normalize package])
              { w with removeDirAllOk := b } s).1
        = (uninstall_helper (app_dir ++ ["tools"] ++ [normalize package]) w s).1) ∧
    (w.readDirOk = false →
      (uninstall app_dir package normalize w s).1
        = .error (.uninstallFailed (app_dir ++ ["tools"] ++ [normalize package])
            .readDirFailed)) := by
  refine ⟨?_, ?_, ?_, ?_⟩
  · intro h
    unfold uninstall
    rw [if_pos hinst]
    simp only [h]
  · intro e h
    unfold uninstall
    rw [if_pos hinst]
    simp only [h]
  · intro b
    cases hb : w.readDirOk with
    | true => simp [uninstall_helper, hb]
    | false => simp [uninstall_helper, hb]
  · intro h
    unfold uninstall
    rw [if_pos hinst]
    simp [uninstall_helper, h]

/-- Witness for the amended C3 at a concrete store, in a world whose shim
directory read fails. -/
theorem uninstall_scan_failures_surface_witness :
    ((["app"] ++ ["tools"] ++ [id "pkg"]) ∈ sampleStore.envDirs) ∧
    (((uninstall_helper (["app"] ++ ["tools"] ++ [id "pkg"]) brokenReadDirWorld
          sampleStore).1 = .ok () →
        (uninstall ["app"] "pkg" id brokenReadDirWorld sampleStore).1 = .ok ()) ∧
     (∀ e, (uninstall_helper (["app"] ++ ["tools"] ++ [id "pkg"]) brokenReadDirWorld
          sampleStore).1 = .error e →
        (uninstall ["app"] "pkg" id brokenReadDirWorld sampleStore).1
          = .error (.uninstallFailed (["app"] ++ ["tools"] ++ [id "pkg"]) e)) ∧
     (∀ b, (uninstall_helper (["app"] ++ ["tools"] ++ [id "pkg"])
              { brokenReadDirWorld with removeDirAllOk := b } sampleStore).1
          = (uninstall_helper (["app"] ++ ["tools"] ++ [id "pkg"]) brokenReadDirWorld
              sampleStore).1) ∧
     (brokenReadDirWorld.readDirOk = false →
        (uninstall ["app"] "pkg" id brokenReadDirWorld sampleStore).1
          = .error (.uninstallFailed (["app"] ++ ["tools"] ++ [id "pkg"])
              .readDirFailed))) :=
  ⟨by decide,
   uninstall_scan_failures_surface ["app"] "pkg" id brokenReadDirWorld sampleStore (by decide)⟩

/-- Claim C8: uninstalling a package whose resolved environment directory
does not exist succeeds without error and without modifying the store — in
particular the shim directory — and doing so any number of times in
succession yields the same successful result. -/
theorem uninstall_missing_package_noop
    (app_dir : FsPath) (package : String) (normalize : String → String)
    (w : HelperWorld) (s : Store)
    (hmiss : app_dir ++ ["tools"] ++ [normalize package] ∉ s.envDirs) :
    uninstall app_dir package normalize w s = (.ok (), s) ∧
    ∀ n : Nat, uninstallIter app_dir package normalize w (n + 1) s = (.ok (), s) := by
  have h1 : uninstall app_dir package normalize w s = (.ok (), s) := by
    unfold uninstall
    rw [if_neg hmiss]
  refine ⟨h1, ?_⟩
  intro n
  induction n with
  | zero => simp [uninstallIter, h1]
  | succ m ihm => simpa [uninstallIter, h1] using ihm

/-- Witness for C8 at the concrete sample store and a package that is not
installed there. -/
theorem uninstall_missing_package_noop_witness :
    ((["app"] ++ ["tools"] ++ [id "other"]) ∉ sampleStore.envDirs) ∧
    (uninstall ["app"] "other" id okWorld sampleStore = (.ok (), sampleStore) ∧
     ∀ n : Nat, uninstallIter ["app"] "other" id okWorld (n + 1) sampleStore
       = (.ok (), sampleStore)) :=
  ⟨by decide,
   uninstall_missing_package_noop ["app"] "other" id okWorld sampleStore (by decide)⟩

/-! ### Theorems about the script runner -/

/-- A script table holding a literal alias `x = ["y", "1"]`, a passthrough
script `p`, and an empty literal alias `e`; only `bin/y` exists as a file. -/
def sampleRunWorld : RunWorld :=
  { venv_path := "proj/.venv", venv_bin := "proj/.venv/bin",
    get_script_cmd := fun n =>
      if n = "x" then some (.cmd ["y", "1"])
      else if n = "p" then some (.external "p")
      else if n = "e" then some (.cmd [])
      else none,
    scriptNames := ["x", "p", "e"],
    isFile := fun q => q == "proj/.venv/bin/y" }

/-- The spec's listing example: `Zeta` is a passthrough and `alpha` a
literal alias. -/
def listWorld : RunWorld :=
  { venv_path := "proj/.venv", venv_bin := "proj/.venv/bin",
    get_script_cmd := fun n =>
      if n = "Zeta" then some (.external "Zeta")
      else if n = "alpha" then some (.cmd ["foo"])
      else none,
    scriptNames := ["Zeta", "alpha"],
    isFile := fun _ => false }

/-- An environment with PATH, PYTHONHOME and HOME set. -/
def sampleEnv : EnvMap := fun k =>
  if k = "PATH" then some "/usr/bin"
  else if k = "PYTHONHOME" then some "/py"
  else if k = "HOME" then some "/home/u"
  else none

/-- The empty process environment. -/
def emptyEnv : EnvMap := fun _ => none

/-- A string consisting of one NUL byte. -/
def nulStr : String := String.mk [Char.ofNat 0]

/-- Claim C4: when the script table defines the command as a non-empty
literal argument sequence, the final argv is: if joining the sequence's
first token onto the project bin path yields an existing file, that resolved
path followed by the remainder of the literal sequence and the trailing
arguments; otherwise the literal sequence unchanged followed by the trailing
arguments. -/
theorem resolve_literal_script
    (w : RunWorld) (name : String) (rest : List String)
    (s0 : String) (stail : List String)
    (hdef : w.get_script_cmd name = some (.cmd (s0 :: stail))) :
    resolveArgs w name rest =
      if w.isFile (pathJoin w.venv_bin s0) then pathJoin w.venv_bin s0 :: (stail ++ rest)
      else (s0 :: stail) ++ rest := by
  simp [resolveArgs, hdef]

/-- Witness for C4: table `x = ["y", "1"]` invoked as `x a`. -/
theorem resolve_literal_script_witness :
    sampleRunWorld.get_script_cmd "x" = some (.cmd ["y", "1"]) ∧
    resolveArgs sampleRunWorld "x" ["a"] =
      (if sampleRunWorld.isFile (pathJoin sampleRunWorld.venv_bin "y")
       then pathJoin sampleRunWorld.venv_bin "y" :: (["1"] ++ ["a"])
       else (["y", "1"] ++ ["a"])) :=
  ⟨by decide, resolve_literal_script sampleRunWorld "x" ["a"] "y" ["1"] (by decide)⟩

/-- Claim C5: a command defined as an empty literal sequence is treated as
undefined — the final argv is the invoked command name followed by the
trailing arguments verbatim. -/
theorem resolve_empty_script
    (w : RunWorld) (name : String) (rest : List String)
    (hdef : w.get_script_cmd name = some (.cmd [])) :
    resolveArgs w name rest = name :: rest := by
  simp [resolveArgs, hdef]

/-- Witness for C5: the empty alias `e` invoked as `e a`. -/
theorem resolve_empty_script_witness :
    sampleRunWorld.get_script_cmd "e" = some (.cmd []) ∧
    resolveArgs sampleRunWorld "e" ["a"] = "e" :: ["a"] :=
  ⟨by decide, resolve_empty_script sampleRunWorld "e" ["a"] (by decide)⟩

/-- Claim C6: a command the table marks as a pure passthrough alias resolves
to the project bin path joined with the original command name, with the
trailing arguments unchanged. -/
theorem resolve_external_script
    (w : RunWorld) (name : String) (rest : List String) (x : String)
    (hdef : w.get_script_cmd name = some (.external x)) :
    resolveArgs w name rest = pathJoin w.venv_bin name :: rest := by
  simp [resolveArgs, hdef]

/-- Witness for C6: the passthrough `p` invoked as `p a`. -/
theorem resolve_external_script_witness :
    sampleRunWorld.get_script_cmd "p" = some (.external "p") ∧
    resolveArgs sampleRunWorld "p" ["a"] = pathJoin sampleRunWorld.venv_bin "p" :: ["a"] :=
  ⟨by decide, resolve_external_script sampleRunWorld "p" ["a"] "p" (by decide)⟩

/-- Claim C7: the overlay applied immediately before process replacement
sets VIRTUAL_ENV to the environment root, sets PATH to the environment bin
directory prepended to the pre-existing PATH — or the bin directory alone
when PATH was unset — removes PYTHONHOME, and modifies no other variable. -/
theorem run_env_overlay (w : RunWorld) (e : EnvMap) :
    applyRunEnv w e "VIRTUAL_ENV" = some w.venv_path ∧
    applyRunEnv w e "PATH"
      = some (match e "PATH" with
              | some p => w.venv_bin ++ ":" ++ p
              | none => w.venv_bin) ∧
    applyRunEnv w e "PYTHONHOME" = none ∧
    (∀ k, k ≠ "VIRTUAL_ENV" → k ≠ "PATH" → k ≠ "PYTHONHOME" →
      applyRunEnv w e k = e k) := by
  cases he : e "PATH" with
  | none =>
    refine ⟨by simp [applyRunEnv, setVar, removeVar, he],
      by simp [applyRunEnv, setVar, removeVar, he],
      by simp [applyRunEnv, setVar, removeVar, he],
      fun k h1 h2 h3 => by simp [applyRunEnv, setVar, removeVar, he, h1, h2, h3]⟩
  | some p =>
    refine ⟨by simp [applyRunEnv, setVar, removeVar, he],
      by simp [applyRunEnv, setVar, removeVar, he],
      by simp [applyRunEnv, setVar, removeVar, he],
      fun k h1 h2 h3 => by simp [applyRunEnv, setVar, removeVar, he, h1, h2, h3]⟩

/-- Witness for C7 at a concrete world and environment. -/
theorem run_env_overlay_witness :
    applyRunEnv sampleRunWorld sampleEnv "VIRTUAL_ENV" = some sampleRunWorld.venv_path ∧
    applyRunEnv sampleRunWorld sampleEnv "PATH"
      = some (match sampleEnv "PATH" with
              | some p => sampleRunWorld.venv_bin ++ ":" ++ p
              | none => sampleRunWorld.venv_bin) ∧
    applyRunEnv sampleRunWorld sampleEnv "PYTHONHOME" = none ∧
    (∀ k, k ≠ "VIRTUAL_ENV" → k ≠ "PATH" → k ≠ "PYTHONHOME" →
      applyRunEnv sampleRunWorld sampleEnv k = sampleEnv k) :=
  run_env_overlay sampleRunWorld sampleEnv

/-- Claim C9: when the list flag is set or no command is given, the run path
prints the defined command names sorted case-insensitively in ascending
order, each rendered as the bare name for passthrough entries and as
`name (args)` for literal entries. -/
theorem list_scripts_listing
    (w : RunWorld) (listFlag : Bool) (cmd : Option (String × List String)) (e : EnvMap)
    (h : listFlag = true ∨ cmd = none) :
    ∃ pairs : List (String × Script),
      executeRun w listFlag cmd e = .listing (pairs.map renderScriptLine) ∧
      pairs.Perm (definedScripts w) ∧
      pairs.Pairwise (fun a b => scriptLe a b = true) := by
  refine ⟨(definedScripts w).mergeSort scriptLe, ?_, ?_, ?_⟩
  · unfold executeRun
    rw [if_pos h]
    rfl
  · exact List.mergeSort_perm _ _
  · have htrans : ∀ a b c : String × Script, scriptLe a b → scriptLe b c → scriptLe a c := by
      intro a b c hab hbc
      simp only [scriptLe, decide_eq_true_eq] at hab hbc ⊢
      exact le_trans hab hbc
    have htotal : ∀ a b : String × Script, scriptLe a b || scriptLe b a := by
      intro a b
      simp only [scriptLe, Bool.or_eq_true, decide_eq_true_eq]
      exact le_total _ _
    exact List.sorted_mergeSort htrans htotal _

/-- Witness for C9: the spec's `Zeta`/`alpha` example with the list flag
set. -/
theorem list_scripts_listing_witness :
    (true = true ∨ (none : Option (String × List String)) = none) ∧
    ∃ pairs : List (String × Script),
      executeRun listWorld true none emptyEnv = .listing (pairs.map renderScriptLine) ∧
      pairs.Perm (definedScripts listWorld) ∧
      pairs.Pairwise (fun a b => scriptLe a b = true) :=
  ⟨Or.inl rfl, list_scripts_listing listWorld true none emptyEnv (Or.inl rfl)⟩

/-- Claim C10: arguments containing an interior NUL byte are removed from
the final argv before its first element is indexed; when every element of
the resolved argv contains a NUL byte the index panics instead of returning
an error, and when the first element alone is unrepresentable the program
executed is a later argument rather than the intended argv[0]. -/
theorem exec_stage_nul_handling :
    (∀ args : List String, (∀ a ∈ args, containsNul a = true) →
      execStage args = .panicked) ∧
    (∀ a0 rest, containsNul a0 = true →
      (∃ a ∈ rest, containsNul a = false) →
      ∃ p, execStage (a0 :: rest)
          = .exec p ((a0 :: rest).filter (fun a => !containsNul a)) ∧
        p ∈ rest ∧ p ≠ a0) := by
  constructor
  · intro args h
    have hnil : args.filter (fun a => !containsNul a) = [] := by
      rw [List.filter_eq_nil_iff]
      intro a ha
      simp [h a ha]
    simp [execStage, hnil]
  · rintro a0 rest h0 ⟨a, ha, hA⟩
    have hf : (a0 :: rest).filter (fun x => !containsNul x)
        = rest.filter (fun x => !containsNul x) :=
      List.filter_cons_of_neg (by simp [h0])
    have hne : rest.filter (fun x => !containsNul x) ≠ [] := by
      intro hnil
      have hcontra := List.filter_eq_nil_iff.mp hnil a ha
      simp [hA] at hcontra
    obtain ⟨p, t, hpt⟩ : ∃ p t, rest.filter (fun x => !containsNul x) = p :: t := by
      cases hx : rest.filter (fun x => !containsNul x) with
      | nil => exact absurd hx hne
      | cons p t => exact ⟨p, t, rfl⟩
    have hpmem : p ∈ rest.filter (fun x => !containsNul x) := by
      rw [hpt]
      exact List.mem_cons_self p t
    refine ⟨p, ?_, (List.mem_filter.mp hpmem).1, ?_⟩
    · simp [execStage, hf, hpt]
    · have hp := (List.mem_filter.mp hpmem).2
      intro heq
      rw [heq, h0] at hp
      simp at hp

/-- Witness for C10: an argv whose sole element is a NUL byte panics, and an
argv whose first element alone holds a NUL byte executes `ok` instead. -/
theorem exec_stage_nul_handling_witness :
    ((∀ a ∈ [nulStr], containsNul a = true) ∧ execStage [nulStr] = .panicked) ∧
    ((containsNul nulStr = true ∧ (∃ a ∈ ["ok"], containsNul a = false)) ∧
      ∃ p, execStage (nulStr :: ["ok"])
          = .exec p ((nulStr :: ["ok"]).filter (fun a => !containsNul a)) ∧
        p ∈ ["ok"] ∧ p ≠ nulStr) :=
  ⟨⟨by decide, exec_stage_nul_handling.1 [nulStr] (by decide)⟩,
   ⟨⟨by decide, ⟨"ok", by simp, by decide⟩⟩,
    exec_stage_nul_handling.2 nulStr ["ok"] (by decide) ⟨"ok", by simp, by decide⟩⟩⟩

end Rye
